import Mathlib

/-!
Shallow embedding of the neonatal cardiac-arrest ensemble pipeline
(src/config.py, src/data/preprocessing.py, src/models/ensemble.py,
src/models/architectures.py), with theorems checking the behavioural
claims of the specification against it.

Machine floats are embedded as exact rationals; numpy/sklearn library
calls are embedded by their documented semantics on the arguments the
repository passes them.
-/

namespace CardiacArrest

/-! ## Configuration constants (src/config.py) -/

abbrev NUM_FEATURES : Nat := 10

abbrev NUM_CLASSES : Nat := 3

abbrev BERT_EMBEDDING_DIM : Nat := 768

def FEATURE_COLUMNS : List String :=
  ["BirthWeight", "FamilyHistory", "PretermBirth", "HeartRate",
   "BreathingDifficulty", "SkinTinge", "Responsiveness", "Movement",
   "DeliveryType", "MothersBPHistory"]

def TARGET_COLUMN : String := "CardiacArrestChance"

/-- Embeds `CATEGORY_MAPS` of src/config.py: each feature column's dict, embedded as
an association list (python dict lookup = first matching key). -/
def categoryPairs : String → List (String × Int)
  | "BirthWeight" => [("WeightTooLow", 3), ("LowWeight", 2), ("NormalWeight", 1)]
  | "FamilyHistory" => [("AboveTwoCases", 3), ("ZeroToTwoCases", 2), ("NoCases", 1)]
  | "PretermBirth" => [("4orMoreWeeksEarlier", 3), ("2To4weeksEarlier", 2), ("NotaPreTerm", 1)]
  | "HeartRate" => [("RapidHeartRate", 3), ("HighHeartRate", 2), ("NormalHeartRate", 1)]
  | "BreathingDifficulty" =>
      [("HighBreathingDifficulty", 3), ("BreathingDifficulty", 2), ("NoBreathingDifficulty", 1)]
  | "SkinTinge" => [("Bluish", 3), ("LightBluish", 2), ("NotBluish", 1)]
  | "Responsiveness" => [("UnResponsive", 3), ("SemiResponsive", 2), ("Responsive", 1)]
  | "Movement" => [("Diminished", 3), ("Decreased", 2), ("NormalMovement", 1)]
  | "DeliveryType" => [("C_Section", 3), ("DifficultDelivery", 2), ("NormalDelivery", 1)]
  | "MothersBPHistory" => [("VeryHighBP", 3), ("HighBP", 2), ("BPInRange", 1)]
  | _ => []

/-- Embeds `TARGET_MAP` of src/config.py. -/
def TARGET_PAIRS : List (String × Int) := [("High", 2), ("Medium", 1), ("Low", 0)]

/-! ## Data pipeline: encoding (src/data/preprocessing.py, load_and_encode)

A raw CSV row is a map from column name to the cell's string value.
`pandas.Series.map(dict)` sends a value through the dict and sends every
value absent from the dict to NaN; the embedded cell type is therefore
`Option Int`, with `none` standing for NaN. -/

/-- One encoded cell: feature columns go through `CATEGORY_MAPS[col]`,
the target column through `TARGET_MAP`; a value absent from the relevant
dict becomes `none` (pandas NaN). Columns that are neither features nor
the target are not integer-encoded by `load_and_encode` and are out of
this embedding's domain (`none`). -/
def encodeRow (r : String → String) (col : String) : Option Int :=
  if col ∈ FEATURE_COLUMNS then List.lookup (r col) (categoryPairs col)
  else if col = TARGET_COLUMN then List.lookup (r col) TARGET_PAIRS
  else none

/-- Embeds `DataPipeline.load_and_encode`: returns the raw frame unchanged and the
integer-encoded frame (row by row through `encodeRow`). -/
def loadAndEncode (df : List (String → String)) :
    List (String → String) × List (String → Option Int) :=
  (df, df.map encodeRow)

/-! ## Data pipeline: stratified split (src/data/preprocessing.py)

`sklearn.model_selection.train_test_split(df, test_size, stratify=y,
random_state=seed)` groups the rows by class label, draws a
seed-determined permutation of each group, and splits each group
proportionally; with an integer `random_state` the permutation depends
only on that integer, while with `random_state=None` it draws fresh OS
entropy. The embedding makes the ambient entropy an explicit argument
and the seed-determined permutation a rotation (any seed-determined
permutation; its exact shape is irrelevant to the claims). -/

structure Row where
  id : Nat
  label : Nat
deriving DecidableEq, Repr

/-- Seed scrambler standing for the seeded numpy PRNG stream. -/
def lcg (seed : Nat) : Nat := (1103515245 * seed + 12345) % 2147483648

/-- One stratified `train_test_split` call: per class label (in first-seen
order), permute the class's rows by the seeded PRNG and carve off
`ceil(testSize * groupSize)` rows as the second component. `entropy` is the
ambient OS entropy, consumed only when `randomState` is `none`. -/
def trainTestSplit (entropy : Nat) (testSize : ℚ) (randomState : Option Nat)
    (df : List Row) : List Row × List Row :=
  let seed := randomState.getD entropy
  let classes := (df.map Row.label).dedup
  let parts := classes.map (fun c =>
    let g := (df.filter (fun r => r.label == c)).rotate (lcg (seed + c))
    let nTest := (⌈testSize * (g.length : ℚ)⌉).toNat
    (g.drop nTest, g.take nTest))
  ((parts.map Prod.fst).flatten, (parts.map Prod.snd).flatten)

/-- Embeds `DataPipeline.stratified_split`: first split carves the test set off the
whole frame, the second carves the validation set off the remainder with the
rescaled fraction `val_size / (1 - test_size)`; both calls pass
`random_state=seed`. Returns (train, val, test). -/
def stratifiedSplit (entropy : Nat) (df : List Row) (testSize valSize : ℚ)
    (seed : Nat) : List Row × List Row × List Row :=
  let p1 := trainTestSplit entropy testSize (some seed) df
  let relValSize := valSize / (1 - testSize)
  let p2 := trainTestSplit entropy relValSize (some seed) p1.1
  (p2.1, p2.2, p1.2)

/-! ## Data pipeline: scaling (src/data/preprocessing.py, scale_features) -/

/-- Greatest `m ≤ k` with `m * m ≤ n` (fuel-structured integer square root). -/
def intSqrtGo : Nat → Nat → Nat
  | 0, _ => 0
  | k + 1, n => if (k + 1) * (k + 1) ≤ n then k + 1 else intSqrtGo k n

/-- Integer square root, exact on perfect squares. -/
def natSqrt (n : Nat) : Nat := intSqrtGo n n

/-- Square root on ℚ standing for numpy's real sqrt; exact on rationals whose
numerator and denominator are perfect squares (the only points at which any
theorem below evaluates it). -/
def ratSqrt (q : ℚ) : ℚ := (natSqrt q.num.toNat : ℚ) / (natSqrt q.den : ℚ)

/-- The columns of a rectangular row-major matrix (numpy axis 0). -/
def columnsOf (X : List (List ℚ)) : List (List ℚ) :=
  (List.range (X.headD []).length).map (fun j => X.map (fun row => row.getD j 0))

/-- Embeds `StandardScaler.fit`: per column (numpy axis 0), the mean and the scale
`sqrt(population variance)`; a zero-variance column gets scale 1
(sklearn `_handle_zeros_in_scale`). -/
def fitScaler (X : List (List ℚ)) : List (ℚ × ℚ) :=
  (columnsOf X).map (fun col =>
    let μ := col.sum / (col.length : ℚ)
    let v := (col.map (fun x => (x - μ) ^ 2)).sum / (col.length : ℚ)
    (μ, if v = 0 then 1 else ratSqrt v))

/-- Embeds `StandardScaler.transform` with fitted per-column (mean, scale):
elementwise `(x - mean) / scale`. Reads the fitted parameters, never
refits them. -/
def scalerTransform (ps : List (ℚ × ℚ)) (X : List (List ℚ)) : List (List ℚ) :=
  X.map (fun row => List.zipWith (fun x p => (x - p.1) / p.2) row ps)

/-- Embeds `DataPipeline.scale_features`: fit on train only, transform all three
splits; the last component is the fitted scaler state left on the pipeline
(`self.scaler`). -/
def scaleFeatures (Xtr Xv Xte : List (List ℚ)) :
    List (List ℚ) × List (List ℚ) × List (List ℚ) × List (ℚ × ℚ) :=
  let p := fitScaler Xtr
  (scalerTransform p Xtr, scalerTransform p Xv, scalerTransform p Xte, p)

/-! ## Ensemble predictor (src/models/ensemble.py)

A keras model is embedded as its prediction function: it maps an input of
its declared kind to one probability row per input row (NUM_CLASSES columns
of exact rationals). Row counts are tracked in the type, as numpy enforces
consistent leading dimensions at stacking time. -/

abbrev Tab (n : Nat) := Fin n → Fin NUM_FEATURES → ℚ

abbrev BertMat (n : Nat) := Fin n → Fin BERT_EMBEDDING_DIM → ℚ

abbrev Probs (n : Nat) := Fin n → Fin NUM_CLASSES → ℚ

/-- The three input formats a member can be fed (ensemble.py routes on the
member's name): the scaled tabular matrix, the ten per-feature integer
columns of EmbeddingNet, or the named tabular+BERT pair of BERTFusion. -/
inductive ModelInput (n : Nat) where
  | tabular (X : Tab n)
  | embeddingCols (cols : Fin NUM_FEATURES → Fin n → Int)
  | fusion (X : Tab n) (bert : BertMat n)

structure KerasModel (n : Nat) where
  predict : ModelInput n → Probs n

/-- Embeds `numpy.astype(int32)`: truncation toward zero. -/
def truncQ (q : ℚ) : Int := if q < 0 then ⌈q⌉ else ⌊q⌋

/-- Embeds `EnsemblePredictor._split_for_embedding`: one integer column per
feature, `X[:, i].astype(int32)`. -/
def splitForEmbedding {n : Nat} (X : Tab n) : Fin NUM_FEATURES → Fin n → Int :=
  fun i r => truncQ (X r i)

/-- Embeds `EnsemblePredictor._collect_predictions` over `zip(trained_models,
model_names)`: EmbeddingNet gets the split raw matrix and is skipped
(with a logged warning) when `X_raw is None`; BERTFusion gets the named
tabular+BERT dict and is skipped when `bert_embeddings is None`; every
other member gets the scaled matrix. -/
def collectPredictions {n : Nat} (pairs : List (KerasModel n × String))
    (X : Tab n) (Xraw : Option (Tab n)) (bert : Option (BertMat n)) :
    List (Probs n) :=
  match pairs with
  | [] => []
  | (m, nm) :: rest =>
    if nm = "EmbeddingNet" then
      match Xraw with
      | some r =>
          m.predict (.embeddingCols (splitForEmbedding r))
            :: collectPredictions rest X Xraw bert
      | none => collectPredictions rest X Xraw bert
    else if nm = "BERTFusion" then
      match bert with
      | some b =>
          m.predict (.fusion X b) :: collectPredictions rest X Xraw bert
      | none => collectPredictions rest X Xraw bert
    else
      m.predict (.tabular X) :: collectPredictions rest X Xraw bert

/-- Mutable state of `EnsemblePredictor` (its three lists). -/
structure EnsemblePredictor (n : Nat) where
  trained_models : List (KerasModel n)
  model_names : List String
  individual_aucs : List ℚ

def EnsemblePredictor.collect {n : Nat} (s : EnsemblePredictor n) (X : Tab n)
    (Xraw : Option (Tab n)) (bert : Option (BertMat n)) : List (Probs n) :=
  collectPredictions (s.trained_models.zip s.model_names) X Xraw bert

/-- Embeds `EnsemblePredictor.predict_ensemble`: `np.mean(all_probs, axis=0)`,
the entrywise arithmetic mean of the collected prediction arrays. -/
def predictEnsemble {n : Nat} (s : EnsemblePredictor n) (X : Tab n)
    (Xraw : Option (Tab n)) (bert : Option (BertMat n)) : Probs n :=
  fun r c =>
    let ps := s.collect X Xraw bert
    (ps.map (fun p => p r c)).sum / (ps.length : ℚ)

/-- Embeds `EnsemblePredictor.predict_weighted_ensemble`: weights are
`individual_aucs[:len(all_probs)]` divided by their sum, then
`np.average(all_probs, axis=0, weights)` = `Σ wᵢ·Pᵢ / Σ wᵢ`. -/
def predictWeightedEnsemble {n : Nat} (s : EnsemblePredictor n) (X : Tab n)
    (Xraw : Option (Tab n)) (bert : Option (BertMat n)) : Probs n :=
  fun r c =>
    let ps := s.collect X Xraw bert
    let w := s.individual_aucs.take ps.length
    let wn := w.map (fun x => x / w.sum)
    (List.zipWith (fun wi p => wi * p r c) wn ps).sum / wn.sum

/-! ## Persistence and roster naming (ensemble.py save_all/load_all,
architectures.py registry) -/

/-- Embeds `ALL_MODEL_NAMES` of src/models/architectures.py. -/
def ALL_MODEL_NAMES : List String :=
  ["ShallowWide", "DeepNarrow", "PyramidBN", "DiamondSELU",
   "ResidualBlock", "SwishLayerNorm", "MixedActivation",
   "HeavyRegularization", "AttentionNet", "VeryDeep",
   "EmbeddingNet", "BERTFusion"]

/-- The `__name__` of each entry of `TABULAR_MODEL_BUILDERS`
(src/models/architectures.py), in registry order. -/
def TABULAR_BUILDER_NAMES : List String :=
  ["build_shallow_wide", "build_deep_narrow", "build_pyramid_bn",
   "build_diamond_selu", "build_residual_block", "build_swish_layernorm",
   "build_mixed_activation", "build_heavy_regularization",
   "build_attention_net", "build_very_deep"]

/-- Python `str.replace` on character lists: replaces every non-overlapping
occurrence of `sub` (nonempty) by `repl`, scanning left to right; the fuel is
the length of the scanned string (each step consumes at least one character). -/
def replaceGo (sub repl : List Char) : Nat → List Char → List Char
  | _, [] => []
  | 0, s => s
  | fuel + 1, c :: rest =>
    if sub.isPrefixOf (c :: rest) ∧ sub ≠ [] then
      repl ++ replaceGo sub repl fuel (List.drop (sub.length - 1) rest)
    else
      c :: replaceGo sub repl fuel rest

/-- Python `s.replace(sub, repl)` for nonempty `sub`. -/
def pyReplace (s sub repl : String) : String :=
  ⟨replaceGo sub.data repl.data s.data.length s.data⟩

/-- The member names `train_all` derives for the tabular models:
`builder.__name__.replace("build_", "")`. -/
def trainedTabularNames : List String :=
  TABULAR_BUILDER_NAMES.map (fun s => pyReplace s "build_" "")

/-- The member names appended by one `train_all` call, in its deterministic
order: the ten tabular members, then EmbeddingNet when raw integer inputs
were supplied, then BERTFusion when BERT embeddings were supplied. -/
def trainAllNames (hasRaw hasBert : Bool) : List String :=
  trainedTabularNames
    ++ (if hasRaw then ["EmbeddingNet"] else [])
    ++ (if hasBert then ["BERTFusion"] else [])

/-- Embeds `EnsemblePredictor.train_all`: appends each newly trained member, its
name, and its validation AUC to the predictor's lists. The trained model
objects and AUC values are outcomes of stochastic training, abstracted as
functions of the member name. -/
def trainAll {n : Nat} (hasRaw hasBert : Bool) (mkModel : String → KerasModel n)
    (mkAuc : String → ℚ) (s : EnsemblePredictor n) : EnsemblePredictor n :=
  let names := trainAllNames hasRaw hasBert
  { trained_models := s.trained_models ++ names.map mkModel
    model_names := s.model_names ++ names
    individual_aucs := s.individual_aucs ++ names.map mkAuc }

/-- Contents of the ensemble artifact directory: one saved-model entry per
member name, plus the optional `individual_aucs.npy` array. -/
structure Store (n : Nat) where
  modelFiles : List (String × KerasModel n)
  aucsFile : Option (List ℚ)

/-- Embeds `EnsemblePredictor.save_all` into a fresh directory: writes one artifact
per `zip(trained_models, model_names)` entry under the member's name, and
the full AUC vector to `individual_aucs.npy`. -/
def saveAll {n : Nat} (s : EnsemblePredictor n) : Store n :=
  { modelFiles := (s.trained_models.zip s.model_names).map (fun mn => (mn.2, mn.1))
    aucsFile := some s.individual_aucs }

/-- Embeds `EnsemblePredictor.load_all`: clears the model and name lists, then for
each name of `ALL_MODEL_NAMES` whose path exists loads it and appends it to
both lists; `individual_aucs` is overwritten only when
`individual_aucs.npy` exists. -/
def loadAll {n : Nat} (st : Store n) (s : EnsemblePredictor n) :
    EnsemblePredictor n :=
  let loaded := ALL_MODEL_NAMES.filterMap
    (fun nm => (st.modelFiles.lookup nm).map (fun m => (nm, m)))
  { trained_models := loaded.map Prod.snd
    model_names := loaded.map Prod.fst
    individual_aucs :=
      match st.aucsFile with
      | some a => a
      | none => s.individual_aucs }

/-- The prediction `_collect_predictions` produces for one member when every
input kind was supplied: routed by the member's name. -/
def memberPrediction {n : Nat} (X : Tab n) (Xraw : Tab n) (bert : BertMat n)
    (mn : KerasModel n × String) : Probs n :=
  if mn.2 = "EmbeddingNet" then
    mn.1.predict (.embeddingCols (splitForEmbedding Xraw))
  else if mn.2 = "BERTFusion" then mn.1.predict (.fusion X bert)
  else mn.1.predict (.tabular X)

/-! ## Concrete fixtures used to instantiate the theorems -/

/-- A model that returns the same probability row on every input. -/
def constModel (n : Nat) (row : List ℚ) : KerasModel n :=
  ⟨fun _ _ c => row.getD c 0⟩

def tabZero (n : Nat) : Tab n := fun _ _ => 0

def rawOnes (n : Nat) : Tab n := fun _ _ => 1

def bertZero (n : Nat) : BertMat n := fun _ _ => 0

/-- The spec's concrete aggregation scenario: two members with validation
AUCs 0.9 and 0.7 and constant per-class predictions [0.6,0.3,0.1] and
[0.2,0.5,0.3]. -/
def ensSpecCase : EnsemblePredictor 1 :=
  { trained_models := [constModel 1 [6/10, 3/10, 1/10], constModel 1 [2/10, 5/10, 3/10]]
    model_names := ["shallow_wide", "deep_narrow"]
    individual_aucs := [9/10, 7/10] }

/-- Two members whose stored AUC weights are equal but zero. -/
def ensZeroWeights : EnsemblePredictor 1 :=
  { trained_models := [constModel 1 [1, 0, 0], constModel 1 [0, 1, 0]]
    model_names := ["shallow_wide", "deep_narrow"]
    individual_aucs := [0, 0] }

/-- Two members whose stored AUC weights are equal and nonzero. -/
def ensEqualWeights : EnsemblePredictor 1 :=
  { trained_models := [constModel 1 [1, 0, 0], constModel 1 [0, 1, 0]]
    model_names := ["shallow_wide", "deep_narrow"]
    individual_aucs := [7/10, 7/10] }

/-- A roster holding one tabular member and the EmbeddingNet member. -/
def ensWithEmbeddingNet : EnsemblePredictor 1 :=
  { trained_models := [constModel 1 [1, 0, 0], constModel 1 [0, 1, 0]]
    model_names := ["shallow_wide", "EmbeddingNet"]
    individual_aucs := [1/2, 1/2] }

/-- Two members with distribution outputs for the row-sum invariant. -/
def ensDistTwo : EnsemblePredictor 1 :=
  { trained_models := [constModel 1 [6/10, 3/10, 1/10], constModel 1 [2/10, 5/10, 3/10]]
    model_names := ["shallow_wide", "deep_narrow"]
    individual_aucs := [9/10, 7/10] }

/-- The state `train_all` leaves after training all 12 members (model
objects and AUCs abstracted to constants). -/
def ensTrained12 : EnsemblePredictor 1 :=
  trainAll true true (fun _ => constModel 1 [1, 0, 0]) (fun _ => 1/2)
    ⟨[], [], []⟩

/-- A store holding one member artifact and no `individual_aucs.npy`. -/
def storeNoAucs : Store 1 :=
  { modelFiles := [("EmbeddingNet", constModel 1 [1, 0, 0])]
    aucsFile := none }

/-- A predictor state with a stale three-entry AUC vector. -/
def ensStaleAucs : EnsemblePredictor 1 :=
  { trained_models := []
    model_names := []
    individual_aucs := [1/2, 1/3, 1/4] }

/-- A raw CSV row with a recognized birth weight, a recognized target, and
an unrecognized value in every other column. -/
def rowSample : String → String :=
  fun col =>
    if col = "BirthWeight" then "WeightTooLow"
    else if col = TARGET_COLUMN then "Low"
    else "Banana"

/-- A two-row data frame with one record per class. -/
def dfTwo : List Row := [⟨0, 0⟩, ⟨1, 1⟩]

/-! ## Helper lemmas -/

theorem lookup_eq_none_of_not_mem_keys {β : Type} (a : String)
    (l : List (String × β)) (h : a ∉ l.map Prod.fst) : List.lookup a l = none := by
  induction l with
  | nil => rfl
  | cons hd tl ih =>
    simp only [List.map_cons, List.mem_cons, not_or] at h
    have hne : (a == hd.1) = false := by
      simp [beq_eq_false_iff_ne, h.1]
    simp [List.lookup, hne, ih h.2]

theorem map_fst_filterMap_pair {α β : Type} (l : List α) (f : α → Option β) :
    (l.filterMap (fun a => (f a).map (fun b => (a, b)))).map Prod.fst
      = l.filter (fun a => (f a).isSome) := by
  induction l with
  | nil => rfl
  | cons hd tl ih =>
    cases hf : f hd <;> simp [List.filterMap_cons, List.filter_cons, hf, ih]

theorem map_snd_filterMap_pair {α β : Type} (l : List α) (f : α → Option β) :
    (l.filterMap (fun a => (f a).map (fun b => (a, b)))).map Prod.snd
      = l.filterMap f := by
  induction l with
  | nil => rfl
  | cons hd tl ih =>
    cases hf : f hd <;> simp [List.filterMap_cons, hf, ih]

theorem collectPredictions_all_inputs {n : Nat}
    (pairs : List (KerasModel n × String)) (X : Tab n) (Xraw : Tab n)
    (bert : BertMat n) :
    collectPredictions pairs X (some Xraw) (some bert)
      = pairs.map (memberPrediction X Xraw bert) := by
  induction pairs with
  | nil => rfl
  | cons hd tl ih =>
    obtain ⟨m, nm⟩ := hd
    by_cases h1 : nm = "EmbeddingNet"
    · simp [collectPredictions, memberPrediction, h1, ih]
    · by_cases h2 : nm = "BERTFusion" <;>
        simp [collectPredictions, memberPrediction, h1, h2, ih]

theorem collectPredictions_no_raw_no_bert {n : Nat}
    (pairs : List (KerasModel n × String)) (X : Tab n) :
    collectPredictions pairs X none none
      = (pairs.filter
          (fun mn => !(mn.2 == "EmbeddingNet") && !(mn.2 == "BERTFusion"))).map
          (fun mn => mn.1.predict (.tabular X)) := by
  induction pairs with
  | nil => rfl
  | cons hd tl ih =>
    obtain ⟨m, nm⟩ := hd
    by_cases h1 : nm = "EmbeddingNet"
    · simp [collectPredictions, List.filter_cons, h1, ih]
    · by_cases h2 : nm = "BERTFusion" <;>
        simp [collectPredictions, List.filter_cons, h1, h2, ih]

theorem collectPredictions_length_le {n : Nat}
    (pairs : List (KerasModel n × String)) (X : Tab n)
    (Xraw : Option (Tab n)) (bert : Option (BertMat n)) :
    (collectPredictions pairs X Xraw bert).length ≤ pairs.length := by
  induction pairs with
  | nil => simp [collectPredictions]
  | cons hd tl ih =>
    obtain ⟨m, nm⟩ := hd
    by_cases h1 : nm = "EmbeddingNet"
    · cases Xraw <;> simp [collectPredictions, h1] <;> omega
    · by_cases h2 : nm = "BERTFusion"
      · cases bert <;> simp [collectPredictions, h1, h2] <;> omega
      · simp [collectPredictions, h1, h2]
        omega

theorem sum_map_div (l : List ℚ) (s : ℚ) :
    (l.map (fun x => x / s)).sum = l.sum / s := by
  induction l with
  | nil => simp
  | cons hd tl ih => simp [ih, add_div]

theorem sum_zipWith_div {α : Type} (l : List ℚ) (ps : List α) (f : α → ℚ)
    (s : ℚ) :
    (List.zipWith (fun w p => w / s * f p) l ps).sum
      = (List.zipWith (fun w p => w * f p) l ps).sum / s := by
  induction l generalizing ps with
  | nil => simp
  | cons hd tl ih =>
    cases ps with
    | nil => simp
    | cons p pt =>
      rw [List.zipWith_cons_cons, List.zipWith_cons_cons, List.sum_cons,
        List.sum_cons, ih pt, div_mul_eq_mul_div, add_div]

theorem zipWith_replicate_left {α β γ : Type} (f : α → β → γ) (b : α) :
    ∀ l : List β, List.zipWith f (List.replicate l.length b) l = l.map (f b)
  | [] => rfl
  | hd :: tl => by
    simp [List.replicate_succ, zipWith_replicate_left f b tl]

theorem sum_column_swap {α : Type} {m : Nat} (l : List α) (f : α → Fin m → ℚ) :
    ∑ c, (l.map (fun p => f p c)).sum = (l.map (fun p => ∑ c, f p c)).sum := by
  induction l with
  | nil => simp
  | cons hd tl ih => simp [Finset.sum_add_distrib, ih]

/-! ## Claim theorems -/

/-- C1: for every non-empty active roster and every input set covering all
members, `predict_weighted_ensemble` returns, per row and class, the
weighted average `Σ(weightᵢ × Pᵢ(class)) / Σ(weightᵢ)` where `weightᵢ` is
member i's stored validation AUC. -/
theorem predict_weighted_is_auc_weighted_average {n : Nat}
    (s : EnsemblePredictor n) (X Xraw : Tab n) (bert : BertMat n)
    (hne : s.trained_models ≠ [])
    (hnames : s.model_names.length = s.trained_models.length)
    (haucs : s.individual_aucs.length = s.trained_models.length)
    (hsum : s.individual_aucs.sum ≠ 0) (r : Fin n) (c : Fin NUM_CLASSES) :
    predictWeightedEnsemble s X (some Xraw) (some bert) r c
      = (List.zipWith
          (fun w mn => w * memberPrediction X Xraw bert mn r c)
          s.individual_aucs (s.trained_models.zip s.model_names)).sum
        / s.individual_aucs.sum := by
  have hzlen : (s.trained_models.zip s.model_names).length
      = s.individual_aucs.length := by
    rw [List.length_zip, hnames, haucs, Nat.min_self]
  simp only [predictWeightedEnsemble, EnsemblePredictor.collect,
    collectPredictions_all_inputs, List.length_map, hzlen, List.take_length]
  rw [List.zipWith_map_left, List.zipWith_map_right, sum_map_div,
    div_self hsum]
  rw [show (fun w mn => w / s.individual_aucs.sum
        * (memberPrediction X Xraw bert mn) r c)
      = (fun w mn => w / s.individual_aucs.sum
        * ((fun p => memberPrediction X Xraw bert p r c) mn)) from rfl,
    sum_zipWith_div, div_one]

/-- C1 witness: the spec's concrete scenario (AUCs 0.9 and 0.7, predictions
[0.6,0.3,0.1] and [0.2,0.5,0.3]) satisfies the hypotheses, the weighted
average formula holds there, and the weighted ensemble probabilities are
exactly [0.425, 0.3875, 0.1875]. -/
theorem predict_weighted_is_auc_weighted_average_witness :
    (ensSpecCase.trained_models ≠ [] ∧
      ensSpecCase.model_names.length = ensSpecCase.trained_models.length ∧
      ensSpecCase.individual_aucs.length = ensSpecCase.trained_models.length ∧
      ensSpecCase.individual_aucs.sum ≠ 0) ∧
    predictWeightedEnsemble ensSpecCase (tabZero 1) (some (rawOnes 1))
        (some (bertZero 1)) 0 0
      = (List.zipWith
          (fun w mn => w * memberPrediction (tabZero 1) (rawOnes 1)
            (bertZero 1) mn 0 0)
          ensSpecCase.individual_aucs
          (ensSpecCase.trained_models.zip ensSpecCase.model_names)).sum
        / ensSpecCase.individual_aucs.sum ∧
    predictWeightedEnsemble ensSpecCase (tabZero 1) (some (rawOnes 1))
        (some (bertZero 1)) 0 0 = 17/40 ∧
    predictWeightedEnsemble ensSpecCase (tabZero 1) (some (rawOnes 1))
        (some (bertZero 1)) 0 1 = 31/80 ∧
    predictWeightedEnsemble ensSpecCase (tabZero 1) (some (rawOnes 1))
        (some (bertZero 1)) 0 2 = 3/16 := by
  refine ⟨⟨by simp [ensSpecCase], rfl, rfl, by norm_num [ensSpecCase]⟩,
    predict_weighted_is_auc_weighted_average ensSpecCase (tabZero 1)
      (rawOnes 1) (bertZero 1) (by simp [ensSpecCase]) rfl rfl
      (by norm_num [ensSpecCase]) 0 0, ?_, ?_, ?_⟩ <;>
  · simp [predictWeightedEnsemble, EnsemblePredictor.collect,
      collectPredictions, ensSpecCase, constModel]
    norm_num

/-- C5 (amended): for every active roster whose stored validation-AUC
weights all equal one common nonzero value, and every input set for which
the call collects at least one member prediction, `predict_weighted_ensemble`
returns the same probability array as `predict_ensemble`. (With an empty
collected list `np.average` raises on the zero weight sum and `np.mean` of
an empty list is NaN, so no equality of arrays is claimed there.) -/
theorem predict_weighted_eq_unweighted_of_equal_weights {n : Nat}
    (s : EnsemblePredictor n) (a : ℚ) (ha : a ≠ 0)
    (hw : ∀ w ∈ s.individual_aucs, w = a)
    (hnames : s.model_names.length = s.trained_models.length)
    (haucs : s.individual_aucs.length = s.trained_models.length)
    (X : Tab n) (Xraw : Option (Tab n)) (bert : Option (BertMat n))
    (hcoll : s.collect X Xraw bert ≠ [])
    (r : Fin n) (c : Fin NUM_CLASSES) :
    predictWeightedEnsemble s X Xraw bert r c
      = predictEnsemble s X Xraw bert r c := by
  have hk : (s.collect X Xraw bert).length ≤ s.individual_aucs.length := by
    calc (s.collect X Xraw bert).length
        ≤ (s.trained_models.zip s.model_names).length :=
          collectPredictions_length_le _ _ _ _
      _ ≤ s.trained_models.length := by
          rw [List.length_zip]; exact Nat.min_le_left _ _
      _ = s.individual_aucs.length := haucs.symm
  set ps := s.collect X Xraw bert with hps
  set k := ps.length with hklen
  have hwlen : (s.individual_aucs.take k).length = k := by
    rw [List.length_take]; exact Nat.min_eq_left hk
  have hrep : s.individual_aucs.take k = List.replicate k a := by
    have := List.eq_replicate_of_mem
      (l := s.individual_aucs.take k) (a := a)
      (fun b hb => hw b (List.mem_of_mem_take hb))
    rwa [hwlen] at this
  have hkpos : 0 < k := List.length_pos.mpr hcoll
  have hkq : (k : ℚ) ≠ 0 := Nat.cast_ne_zero.mpr (by omega)
  have hsum : (s.individual_aucs.take k).sum = (k : ℚ) * a := by
    rw [hrep, List.sum_replicate, nsmul_eq_mul]
  have hdivw : a / ((k : ℚ) * a) = 1 / k := by
    rw [mul_comm, div_mul_eq_div_div, div_self ha]
  simp only [predictWeightedEnsemble, predictEnsemble, ← hps]
  rw [← hklen, hsum, hrep, List.map_replicate, hdivw]
  have hnum : List.zipWith (fun wi p => wi * p r c)
      (List.replicate k ((1 : ℚ) / k)) ps
      = ps.map (fun p => (1 : ℚ) / k * p r c) := by
    rw [hklen, zipWith_replicate_left]
  rw [hnum, List.sum_replicate, nsmul_eq_mul, List.sum_map_mul_left,
    mul_one_div, div_self hkq, div_one, one_div_mul_eq_div]

/-- C5 counterexample: with both stored weights equal to 0 the claim as
stated fails: the weighted normalization divides by a zero weight sum and
the weighted prediction differs from the unweighted mean. -/
theorem predict_weighted_zero_weights_differs :
    predictWeightedEnsemble ensZeroWeights (tabZero 1) none none 0 0
      ≠ predictEnsemble ensZeroWeights (tabZero 1) none none 0 0 := by
  simp [predictWeightedEnsemble, predictEnsemble, EnsemblePredictor.collect,
    collectPredictions, ensZeroWeights, constModel]

/-- C5 witness: a roster whose two weights both equal 0.7 satisfies the
hypotheses, its call collects two member predictions (a non-empty list),
and weighted equals unweighted prediction there. -/
theorem predict_weighted_eq_unweighted_of_equal_weights_witness :
    ((7/10 : ℚ) ≠ 0 ∧
      (∀ w ∈ ensEqualWeights.individual_aucs, w = 7/10) ∧
      ensEqualWeights.model_names.length
        = ensEqualWeights.trained_models.length ∧
      ensEqualWeights.individual_aucs.length
        = ensEqualWeights.trained_models.length ∧
      ensEqualWeights.collect (tabZero 1) none none ≠ []) ∧
    predictWeightedEnsemble ensEqualWeights (tabZero 1) none none 0 0
      = predictEnsemble ensEqualWeights (tabZero 1) none none 0 0 := by
  have hwp : ∀ w ∈ ensEqualWeights.individual_aucs, w = 7/10 := by
    intro w hw
    simp only [ensEqualWeights, List.mem_cons, List.not_mem_nil, or_false] at hw
    rcases hw with h | h <;> rw [h]
  have hcoll : ensEqualWeights.collect (tabZero 1) none none ≠ [] := by
    simp [EnsemblePredictor.collect, collectPredictions, ensEqualWeights]
  exact ⟨⟨by norm_num, hwp, rfl, rfl, hcoll⟩,
    predict_weighted_eq_unweighted_of_equal_weights ensEqualWeights (7/10)
      (by norm_num) hwp rfl rfl (tabZero 1) none none hcoll 0 0⟩

/-- C6: for every non-empty active roster whose members each output a
3-class probability distribution (rows summing to 1), every output row of
`predict_ensemble` sums to 1 across the 3 classes. -/
theorem predict_ensemble_rows_sum_to_one {n : Nat}
    (s : EnsemblePredictor n)
    (hne : s.trained_models ≠ [])
    (hnames : s.model_names.length = s.trained_models.length)
    (hdist : ∀ m ∈ s.trained_models, ∀ inp : ModelInput n, ∀ r : Fin n,
      ∑ c, m.predict inp r c = 1)
    (X Xraw : Tab n) (bert : BertMat n) (r : Fin n) :
    ∑ c, predictEnsemble s X (some Xraw) (some bert) r c = 1 := by
  simp only [predictEnsemble, EnsemblePredictor.collect,
    collectPredictions_all_inputs]
  set zs := s.trained_models.zip s.model_names with hzs
  have hlen : zs.length = s.trained_models.length := by
    rw [hzs, List.length_zip, hnames, Nat.min_self]
  have hlq : ((zs.map (memberPrediction X Xraw bert)).length : ℚ) ≠ 0 := by
    rw [List.length_map, hlen]
    exact Nat.cast_ne_zero.mpr
      (by simpa [List.length_eq_zero] using hne)
  rw [← Finset.sum_div]
  have hswap : ∑ c, ((zs.map (memberPrediction X Xraw bert)).map
      (fun p => p r c)).sum
      = ((zs.map (memberPrediction X Xraw bert)).map
          (fun p => ∑ c, p r c)).sum := by
    exact sum_column_swap _ _
  rw [hswap]
  have hone : ∀ q ∈ (zs.map (memberPrediction X Xraw bert)).map
      (fun p => ∑ c, p r c), q = 1 := by
    intro q hq
    simp only [List.map_map, List.mem_map] at hq
    obtain ⟨⟨m, nm⟩, hmn, hq⟩ := hq
    have hm : m ∈ s.trained_models := (List.of_mem_zip (hzs ▸ hmn)).1
    subst hq
    simp only [Function.comp_apply, memberPrediction]
    split
    · exact hdist m hm _ r
    · split
      · exact hdist m hm _ r
      · exact hdist m hm _ r
  have hrep := List.eq_replicate_of_mem hone
  rw [hrep, List.sum_replicate, nsmul_eq_mul, mul_one, List.length_map,
    List.length_map]
  rw [List.length_map] at hlq
  exact div_self hlq

/-- C6 witness: the two-member distribution roster satisfies the
hypotheses, and its ensemble row sums to 1. -/
theorem predict_ensemble_rows_sum_to_one_witness :
    (ensDistTwo.trained_models ≠ [] ∧
      ensDistTwo.model_names.length = ensDistTwo.trained_models.length ∧
      (∀ m ∈ ensDistTwo.trained_models, ∀ inp : ModelInput 1, ∀ r : Fin 1,
        ∑ c, m.predict inp r c = 1)) ∧
    ∑ c, predictEnsemble ensDistTwo (tabZero 1) (some (rawOnes 1))
      (some (bertZero 1)) 0 c = 1 := by
  have hdist : ∀ m ∈ ensDistTwo.trained_models, ∀ inp : ModelInput 1,
      ∀ r : Fin 1, ∑ c, m.predict inp r c = 1 := by
    intro m hm inp r
    simp only [ensDistTwo, List.mem_cons, List.not_mem_nil, or_false] at hm
    rcases hm with h | h <;>
      (subst h; rw [Fin.sum_univ_three]; simp [constModel]; norm_num)
  exact ⟨⟨by simp [ensDistTwo], rfl, hdist⟩,
    predict_ensemble_rows_sum_to_one ensDistTwo (by simp [ensDistTwo]) rfl
      hdist (tabZero 1) (rawOnes 1) (bertZero 1) 0⟩

/-- C3 (amended): a prediction call that omits EmbeddingNet's raw-integer
input and BERTFusion's auxiliary-embedding input does not raise: those
members are silently skipped (with a logged warning) and the call collects
exactly the remaining members' tabular predictions. -/
theorem collect_skips_members_with_missing_inputs {n : Nat}
    (s : EnsemblePredictor n) (X : Tab n) :
    s.collect X none none
      = ((s.trained_models.zip s.model_names).filter
          (fun mn => !(mn.2 == "EmbeddingNet")
            && !(mn.2 == "BERTFusion"))).map
          (fun mn => mn.1.predict (.tabular X)) :=
  collectPredictions_no_raw_no_bert _ _

/-- C3 counterexample: a roster containing EmbeddingNet, called without the
raw-integer matrix, produces a result (from the one remaining tabular
member) instead of raising a hard error. -/
theorem predict_without_raw_input_returns_result :
    predictEnsemble ensWithEmbeddingNet (tabZero 1) none none 0 0 = 1 ∧
    (ensWithEmbeddingNet.collect (tabZero 1) none none).length = 1 := by
  constructor
  · simp [predictEnsemble, EnsemblePredictor.collect, collectPredictions,
      ensWithEmbeddingNet, constModel]
  · simp [EnsemblePredictor.collect, collectPredictions, ensWithEmbeddingNet]

/-- C2 (code bug): after `train_all` with all inputs supplied the roster
holds the twelve snake_case-or-literal member names, but `save_all`
followed by `load_all` reconstructs only `["EmbeddingNet", "BERTFusion"]`:
the ten tabular artifacts are saved under the names derived from the
builder function names (`shallow_wide`, ...), while `load_all` looks up
the CamelCase `ALL_MODEL_NAMES` (`ShallowWide`, ...), so the reloaded
roster differs from the saved one even though every artifact is present,
and the reloaded 12-entry AUC vector is misaligned with the 2-member
roster. -/
theorem save_load_roster_mismatch :
    ensTrained12.model_names
      = ["shallow_wide", "deep_narrow", "pyramid_bn", "diamond_selu",
         "residual_block", "swish_layernorm", "mixed_activation",
         "heavy_regularization", "attention_net", "very_deep",
         "EmbeddingNet", "BERTFusion"] ∧
    (loadAll (saveAll ensTrained12) ensTrained12).model_names
      = ["EmbeddingNet", "BERTFusion"] ∧
    (loadAll (saveAll ensTrained12) ensTrained12).model_names
      ≠ ensTrained12.model_names ∧
    (loadAll (saveAll ensTrained12) ensTrained12).individual_aucs.length
      = 12 := by
  refine ⟨by decide, by decide, by decide, ?_⟩
  decide

/-- C10: `load_all` resets the model and name lists to exactly the
artifacts found on disk (in `ALL_MODEL_NAMES` order), but leaves
`individual_aucs` unchanged whenever `individual_aucs.npy` is absent. -/
theorem load_all_keeps_stale_aucs_when_npy_missing {n : Nat}
    (st : Store n) (s : EnsemblePredictor n) (h : st.aucsFile = none) :
    (loadAll st s).individual_aucs = s.individual_aucs ∧
    (loadAll st s).model_names
      = ALL_MODEL_NAMES.filter (fun nm => (st.modelFiles.lookup nm).isSome) ∧
    (loadAll st s).trained_models
      = ALL_MODEL_NAMES.filterMap (fun nm => st.modelFiles.lookup nm) := by
  refine ⟨?_, ?_, ?_⟩
  · simp [loadAll, h]
  · simpa [loadAll] using
      map_fst_filterMap_pair ALL_MODEL_NAMES (fun nm => st.modelFiles.lookup nm)
  · simpa [loadAll] using
      map_snd_filterMap_pair ALL_MODEL_NAMES (fun nm => st.modelFiles.lookup nm)

/-- C10 witness: a store with one artifact and no AUC file leaves a stale
three-entry AUC vector next to a one-member reloaded roster. -/
theorem load_all_keeps_stale_aucs_when_npy_missing_witness :
    storeNoAucs.aucsFile = none ∧
    ((loadAll storeNoAucs ensStaleAucs).individual_aucs
        = ensStaleAucs.individual_aucs ∧
      (loadAll storeNoAucs ensStaleAucs).model_names
        = ALL_MODEL_NAMES.filter
            (fun nm => (storeNoAucs.modelFiles.lookup nm).isSome) ∧
      (loadAll storeNoAucs ensStaleAucs).trained_models
        = ALL_MODEL_NAMES.filterMap
            (fun nm => storeNoAucs.modelFiles.lookup nm)) ∧
    (loadAll storeNoAucs ensStaleAucs).individual_aucs.length = 3 ∧
    (loadAll storeNoAucs ensStaleAucs).model_names = ["EmbeddingNet"] := by
  refine ⟨rfl,
    load_all_keeps_stale_aucs_when_npy_missing storeNoAucs ensStaleAucs rfl,
    by decide, by decide⟩

/-- C7: `load_and_encode` maps each recognized categorical string through
the fixed encoding table — in particular BirthWeight "WeightTooLow" ↦ 3 and
target CardiacArrestChance "Low" ↦ 0 — and maps every category value absent
from the table to a missing value (`none`), never to a default integer. -/
theorem load_and_encode_fixed_table_and_missing
    (df : List (String → String)) (rr : String → String) (h : rr ∈ df) :
    encodeRow rr ∈ (loadAndEncode df).2 ∧
    (∀ col ∈ FEATURE_COLUMNS,
      encodeRow rr col = List.lookup (rr col) (categoryPairs col)) ∧
    (rr "BirthWeight" = "WeightTooLow" →
      encodeRow rr "BirthWeight" = some 3) ∧
    (rr TARGET_COLUMN = "Low" → encodeRow rr TARGET_COLUMN = some 0) ∧
    (∀ col ∈ FEATURE_COLUMNS, rr col ∉ (categoryPairs col).map Prod.fst →
      encodeRow rr col = none) ∧
    (rr TARGET_COLUMN ∉ TARGET_PAIRS.map Prod.fst →
      encodeRow rr TARGET_COLUMN = none) := by
  have hfeat : ∀ col ∈ FEATURE_COLUMNS,
      encodeRow rr col = List.lookup (rr col) (categoryPairs col) := by
    intro col hcol
    unfold encodeRow
    rw [if_pos hcol]
  have htarget : encodeRow rr TARGET_COLUMN
      = List.lookup (rr TARGET_COLUMN) TARGET_PAIRS := by
    unfold encodeRow
    rw [if_neg (by decide), if_pos rfl]
  refine ⟨List.mem_map_of_mem encodeRow h, hfeat, ?_, ?_, ?_, ?_⟩
  · intro hv
    rw [hfeat "BirthWeight" (by decide), hv]
    rfl
  · intro hv
    rw [htarget, hv]
    rfl
  · intro col hcol hnot
    rw [hfeat col hcol]
    exact lookup_eq_none_of_not_mem_keys _ _ hnot
  · intro hnot
    rw [htarget]
    exact lookup_eq_none_of_not_mem_keys _ _ hnot

/-- C7 witness: a concrete row with BirthWeight "WeightTooLow", target
"Low", and the unrecognized value "Banana" elsewhere; "Banana" is absent
from the FamilyHistory table and encodes to `none`. -/
theorem load_and_encode_fixed_table_and_missing_witness :
    rowSample ∈ [rowSample] ∧
    (encodeRow rowSample ∈ (loadAndEncode [rowSample]).2 ∧
      (∀ col ∈ FEATURE_COLUMNS, encodeRow rowSample col
        = List.lookup (rowSample col) (categoryPairs col)) ∧
      (rowSample "BirthWeight" = "WeightTooLow" →
        encodeRow rowSample "BirthWeight" = some 3) ∧
      (rowSample TARGET_COLUMN = "Low" →
        encodeRow rowSample TARGET_COLUMN = some 0) ∧
      (∀ col ∈ FEATURE_COLUMNS,
        rowSample col ∉ (categoryPairs col).map Prod.fst →
        encodeRow rowSample col = none) ∧
      (rowSample TARGET_COLUMN ∉ TARGET_PAIRS.map Prod.fst →
        encodeRow rowSample TARGET_COLUMN = none)) ∧
    encodeRow rowSample "BirthWeight" = some 3 ∧
    encodeRow rowSample TARGET_COLUMN = some 0 ∧
    rowSample "FamilyHistory" ∉ (categoryPairs "FamilyHistory").map Prod.fst ∧
    encodeRow rowSample "FamilyHistory" = none := by
  refine ⟨List.mem_singleton.mpr rfl,
    load_and_encode_fixed_table_and_missing [rowSample] rowSample
      (List.mem_singleton.mpr rfl), by decide, by decide, by decide, by decide⟩

/-- C4 (amended): `scale_features` fits the scaler on the train matrix
only, the fitted state does not depend on the validation or test
matrices, and re-applying the fitted transform to the same validation
matrix reproduces the already-returned scaled matrix (the transform is a
pure read of the fitted state, never a refit). -/
theorem scale_features_fit_on_train_only_and_pure
    (Xtr Xv Xte Xv2 Xte2 : List (List ℚ)) :
    (scaleFeatures Xtr Xv Xte).2.2.2 = fitScaler Xtr ∧
    (scaleFeatures Xtr Xv Xte).2.2.2 = (scaleFeatures Xtr Xv2 Xte2).2.2.2 ∧
    scalerTransform ((scaleFeatures Xtr Xv Xte).2.2.2) Xv
      = (scaleFeatures Xtr Xv Xte).2.1 :=
  ⟨rfl, rfl, rfl⟩

/-- C4 counterexample: the fitted transform is not idempotent. Fitting on
the one-column train matrix [[0],[2]] gives mean 1 and scale 1; applying
the fitted transform to the validation matrix [[1]] once gives [[0]], while
applying it twice gives [[-1]]. -/
theorem fitted_transform_not_idempotent :
    scalerTransform ((scaleFeatures [[0], [2]] [[1]] [[1]]).2.2.2)
        (scalerTransform ((scaleFeatures [[0], [2]] [[1]] [[1]]).2.2.2) [[1]])
      ≠ scalerTransform ((scaleFeatures [[0], [2]] [[1]] [[1]]).2.2.2) [[1]] := by
  have hfit : (scaleFeatures [[0], [2]] [[1]] [[1]]).2.2.2 = [(1, 1)] := by
    show fitScaler [[0], [2]] = [(1, 1)]
    have hcol : columnsOf [[0], [2]] = [[0, 2]] := by
      simp [columnsOf, List.range_succ]
    rw [fitScaler, hcol]
    have hv : ((([0, 2] : List ℚ).map
        (fun x => (x - (([0, 2] : List ℚ).sum
          / (([0, 2] : List ℚ).length : ℚ))) ^ 2)).sum
        / (([0, 2] : List ℚ).length : ℚ)) = 1 := by
      norm_num
    simp only [List.map_cons, List.map_nil, hv]
    rw [if_neg (by norm_num)]
    norm_num [List.sum_cons, List.sum_nil, ratSqrt, natSqrt, intSqrtGo]
  rw [hfit]
  norm_num [scalerTransform]

/-- C8: two `stratified_split` calls with the same data, fractions, and
seed produce identical partitions, whatever the ambient OS entropy is:
with `random_state=seed` supplied, the entropy argument is never read. -/
theorem stratified_split_deterministic (e1 e2 : Nat) (df : List Row)
    (testSize valSize : ℚ) (seed : Nat) :
    stratifiedSplit e1 df testSize valSize seed
      = stratifiedSplit e2 df testSize valSize seed := rfl

theorem flatten_perm_of_forall {α : Type} (cs : List Nat) (p q : Nat → List α)
    (h : ∀ c ∈ cs, (p c).Perm (q c)) :
    ((cs.map p).flatten).Perm ((cs.map q).flatten) := by
  induction cs with
  | nil => rfl
  | cons hd tl ih =>
    simp only [List.map_cons, List.flatten_cons]
    exact (h hd (by simp)).append (ih (fun c hc => h c (by simp [hc])))

theorem flatten_fst_append_flatten_snd {α : Type}
    (l : List (List α × List α)) :
    ((l.map Prod.fst).flatten ++ (l.map Prod.snd).flatten).Perm
      ((l.map (fun pr => pr.1 ++ pr.2)).flatten) := by
  induction l with
  | nil => rfl
  | cons hd tl ih =>
    simp only [List.map_cons, List.flatten_cons]
    have hmid : List.Perm
        ((tl.map Prod.fst).flatten ++ (hd.2 ++ (tl.map Prod.snd).flatten))
        (hd.2 ++ ((tl.map Prod.fst).flatten
          ++ (tl.map Prod.snd).flatten)) := by
      rw [← List.append_assoc, ← List.append_assoc]
      exact List.Perm.append_right _ List.perm_append_comm
    have hstep : List.Perm
        (hd.1 ++ ((tl.map Prod.fst).flatten
          ++ (hd.2 ++ (tl.map Prod.snd).flatten)))
        (hd.1 ++ (hd.2 ++ (tl.map (fun pr => pr.1 ++ pr.2)).flatten)) :=
      List.Perm.append_left hd.1
        (hmid.trans (List.Perm.append_left hd.2 ih))
    rw [List.append_assoc, List.append_assoc]
    exact hstep

theorem filter_label_groups_perm :
    ∀ (cs : List Nat) (df : List Row), cs.Nodup →
      (∀ r ∈ df, r.label ∈ cs) →
      ((cs.map (fun c => df.filter (fun x => x.label == c))).flatten).Perm
        df := by
  intro cs
  induction cs with
  | nil =>
    intro df _ hcov
    cases df with
    | nil => simp
    | cons r t => exact absurd (hcov r (by simp)) (by simp)
  | cons c tl ih =>
    intro df hnd hcov
    simp only [List.map_cons, List.flatten_cons]
    have hnd' := List.nodup_cons.mp hnd
    have htl : ∀ d ∈ tl, df.filter (fun x => x.label == d)
        = (df.filter (fun x => !(x.label == c))).filter
            (fun x => x.label == d) := by
      intro d hd
      rw [List.filter_filter]
      refine (List.filter_congr ?_)
      intro x hx
      cases hxd : (x.label == d) with
      | false => simp [hxd]
      | true =>
        have hxl : x.label = d := by simpa using hxd
        have hdc : d ≠ c := fun hdx => hnd'.1 (hdx ▸ hd)
        simp [hxl, hdc]
    rw [List.map_congr_left htl]
    have hcov' : ∀ r ∈ df.filter (fun x => !(x.label == c)),
        r.label ∈ tl := by
      intro r hr
      have hmem := List.mem_filter.mp hr
      have hin := hcov r hmem.1
      have hne : r.label ≠ c := by simpa using hmem.2
      rcases List.mem_cons.mp hin with h | h
      · exact absurd h hne
      · exact h
    exact (List.Perm.append_left _
      (ih (df.filter (fun x => !(x.label == c))) hnd'.2 hcov')).trans
      (List.filter_append_perm _ df)

theorem trainTestSplit_perm (e : Nat) (t : ℚ) (rs : Option Nat)
    (df : List Row) :
    ((trainTestSplit e t rs df).1 ++ (trainTestSplit e t rs df).2).Perm df := by
  simp only [trainTestSplit]
  refine (flatten_fst_append_flatten_snd _).trans ?_
  rw [List.map_map]
  refine (flatten_perm_of_forall _ _
    (fun c => df.filter (fun x => x.label == c)) ?_).trans ?_
  · intro c hc
    simp only [Function.comp]
    refine List.perm_append_comm.trans ?_
    rw [List.take_append_drop]
    exact List.rotate_perm _ _
  · exact filter_label_groups_perm _ df (List.nodup_dedup _)
      (fun r hr => List.mem_dedup.mpr (List.mem_map_of_mem Row.label hr))

/-- C9: the three partitions returned by `stratified_split` are exhaustive
(their concatenation is a permutation of the source frame) and, when the
source records are distinct, pairwise disjoint. -/
theorem stratified_split_partition (e : Nat) (df : List Row) (t v : ℚ)
    (seed : Nat) (hnd : df.Nodup) :
    ((stratifiedSplit e df t v seed).1 ++ (stratifiedSplit e df t v seed).2.1
      ++ (stratifiedSplit e df t v seed).2.2).Perm df ∧
    List.Disjoint (stratifiedSplit e df t v seed).1
      (stratifiedSplit e df t v seed).2.1 ∧
    List.Disjoint (stratifiedSplit e df t v seed).1
      (stratifiedSplit e df t v seed).2.2 ∧
    List.Disjoint (stratifiedSplit e df t v seed).2.1
      (stratifiedSplit e df t v seed).2.2 := by
  have h1 := trainTestSplit_perm e t (some seed) df
  have h2 := trainTestSplit_perm e (v / (1 - t)) (some seed)
    (trainTestSplit e t (some seed) df).1
  have hperm : ((stratifiedSplit e df t v seed).1
      ++ (stratifiedSplit e df t v seed).2.1
      ++ (stratifiedSplit e df t v seed).2.2).Perm df := by
    simp only [stratifiedSplit]
    exact (List.Perm.append_right _ h2).trans h1
  refine ⟨hperm, ?_, ?_, ?_⟩ <;>
  · have hnodup := hperm.nodup_iff.mpr hnd
    have ha := List.nodup_append.mp hnodup
    have hb := List.nodup_append.mp ha.1
    first
      | exact hb.2.2
      | exact (List.disjoint_append_left.mp ha.2.2).1
      | exact (List.disjoint_append_left.mp ha.2.2).2

/-- C9 witness: a concrete two-record frame with distinct rows; its split
partitions permute the frame and are pairwise disjoint. -/
theorem stratified_split_partition_witness :
    dfTwo.Nodup ∧
    (((stratifiedSplit 0 dfTwo (15/100) (15/100) 42).1
        ++ (stratifiedSplit 0 dfTwo (15/100) (15/100) 42).2.1
        ++ (stratifiedSplit 0 dfTwo (15/100) (15/100) 42).2.2).Perm dfTwo ∧
      List.Disjoint (stratifiedSplit 0 dfTwo (15/100) (15/100) 42).1
        (stratifiedSplit 0 dfTwo (15/100) (15/100) 42).2.1 ∧
      List.Disjoint (stratifiedSplit 0 dfTwo (15/100) (15/100) 42).1
        (stratifiedSplit 0 dfTwo (15/100) (15/100) 42).2.2 ∧
      List.Disjoint (stratifiedSplit 0 dfTwo (15/100) (15/100) 42).2.1
        (stratifiedSplit 0 dfTwo (15/100) (15/100) 42).2.2) :=
  ⟨by decide, stratified_split_partition 0 dfTwo (15/100) (15/100) 42
    (by decide)⟩

end CardiacArrest
